import Mathlib

/-!
Shallow embedding of the kanmind backend core (boards_app, tasks_app):
the Board/Task/Comment data model, the board and task view operations and
their serializers, translated from the Django/DRF source.  Machine state is
explicit; every operation returns an outcome together with the successor
state (unchanged on any failure, matching the validate-then-commit flow of
the views).
-/

namespace Kanmind

abbrev UserId := Nat
abbrev BoardId := Nat
abbrev TaskId := Nat
abbrev CommentId := Nat

/-- Drop leading and trailing characters satisfying `p` from a character
list. -/
def trimChars (p : Char → Bool) (l : List Char) : List Char :=
  ((l.dropWhile p).reverse.dropWhile p).reverse

/-- Python `str.strip()` / DRF `CharField(trim_whitespace=True)`: drop leading
and trailing whitespace. -/
def pyStrip (s : String) : String :=
  String.mk (trimChars Char.isWhitespace s.toList)

/-- Python truthiness of an optional integer (`if assignee_id:`):
`None` and `0` are falsy. -/
def pyTruthy (o : Option Nat) : Bool :=
  match o with
  | none => false
  | some n => n != 0

/-- `boards_app.models.Board`: title, owner FK, members m2m. -/
structure Board where
  id : BoardId
  title : String
  owner : UserId
  members : List UserId
  deriving Repr, DecidableEq

/-- `tasks_app.models.Task.STATUS_CHOICES`. -/
inductive Status where
  | toDo | inProgress | review | done
  deriving Repr, DecidableEq

/-- `tasks_app.models.Task.PRIORITY_CHOICES`. -/
inductive Priority where
  | low | medium | high
  deriving Repr, DecidableEq

/-- `tasks_app.models.Task`. -/
structure Task where
  id : TaskId
  board : BoardId
  title : String
  description : String
  status : Status
  priority : Priority
  assignee : Option UserId
  reviewer : Option UserId
  createdBy : UserId
  dueDate : Option Nat
  deriving Repr, DecidableEq

/-- `tasks_app.models.Comment`; `createdAt` is the `created_at` timestamp. -/
structure Comment where
  id : CommentId
  task : TaskId
  author : UserId
  content : String
  createdAt : Nat
  deriving Repr, DecidableEq

/-- The persisted state: user table plus the three entity tables.
`comments` is kept in insertion (primary-key) order. -/
structure State where
  users : List UserId
  boards : List Board
  tasks : List Task
  comments : List Comment
  deriving Repr, DecidableEq

/-- Operation outcome, as translated to HTTP by the views:
`ok` ~ 200/201/204, `validationError field` ~ 400, `forbidden` ~ 403,
`notFound` ~ 404. -/
inductive Outcome (α : Type) where
  | ok : α → Outcome α
  | validationError : String → Outcome α
  | forbidden : Outcome α
  | notFound : Outcome α
  deriving Repr, DecidableEq

def findBoard (s : State) (bid : BoardId) : Option Board :=
  s.boards.find? (fun b => b.id == bid)

def findTask (s : State) (tid : TaskId) : Option Task :=
  s.tasks.find? (fun t => t.id == tid)

def findComment (s : State) (cid : CommentId) : Option Comment :=
  s.comments.find? (fun c => c.id == cid)

def freshBoardId (s : State) : BoardId :=
  s.boards.foldr (fun b acc => max b.id acc) 0 + 1

def freshTaskId (s : State) : TaskId :=
  s.tasks.foldr (fun t acc => max t.id acc) 0 + 1

def freshCommentId (s : State) : CommentId :=
  s.comments.foldr (fun c acc => max c.id acc) 0 + 1

/-- Replace the board with the same id (`instance.save()`). -/
def setBoard (s : State) (b : Board) : State :=
  { s with boards := s.boards.map (fun x => if x.id == b.id then b else x) }

/-- Replace the task with the same id (`instance.save()`). -/
def setTask (s : State) (t : Task) : State :=
  { s with tasks := s.tasks.map (fun x => if x.id == t.id then t else x) }

/-- `boards_app.api.permissions.IsBoardMember.has_object_permission`:
`obj.owner == request.user or request.user in obj.members.all()`. -/
def isBoardMember (u : UserId) (b : Board) : Bool :=
  b.owner == u || b.members.contains u

/-- `BoardCreateSerializer.validate_members` / `BoardUpdateSerializer.validate_members`:
every provided id must exist in the user table. -/
def membersInvalid (s : State) (mids : List UserId) : Bool :=
  mids.any (fun m => !(s.users.contains m))

/-- `BoardViewSet.create` + `BoardCreateSerializer`.  `memberIds = none` models
a request without the optional `members` key.  The owner (the requester) is
added by the view when missing. -/
def createBoard (s : State) (requester : UserId) (title : String)
    (memberIds : Option (List UserId)) : Outcome Board × State :=
  if pyStrip title = "" then (Outcome.validationError "title", s)
  else
    let mids := memberIds.getD []
    if membersInvalid s mids then (Outcome.validationError "members", s)
    else
      let base : Board := { id := freshBoardId s, title := pyStrip title,
                            owner := requester, members := [] }
      let created := if mids.isEmpty then base
                     else { base with members := s.users.filter (fun u => mids.contains u) }
      let final := if created.members.contains requester then created
                   else { created with members := created.members ++ [requester] }
      (Outcome.ok final, { s with boards := s.boards ++ [final] })

/-- DRF blank check for an optionally supplied `CharField` (a supplied title
may not be blank after trimming). -/
def blankIfGiven (o : Option String) : Bool :=
  match o with
  | some t => pyStrip t == ""
  | none => false

/-- `BoardViewSet.partial_update` + `BoardUpdateSerializer.update`:
board must exist (404), requester must pass `IsBoardMember` (403); a provided
non-empty `members` list replaces the membership set; an absent or empty list
leaves it unchanged. -/
def updateBoard (s : State) (requester : UserId) (bid : BoardId)
    (newTitle : Option String) (memberIds : Option (List UserId)) :
    Outcome Board × State :=
  match findBoard s bid with
  | none => (Outcome.notFound, s)
  | some b =>
    if !(isBoardMember requester b) then (Outcome.forbidden, s)
    else if blankIfGiven newTitle then (Outcome.validationError "title", s)
    else if membersInvalid s (memberIds.getD []) then (Outcome.validationError "members", s)
    else
      let b1 := { b with title := match newTitle with | some t => pyStrip t | none => b.title }
      let b2 := match memberIds with
                | some l => if l.isEmpty then b1
                            else { b1 with members := s.users.filter (fun u => l.contains u) }
                | none => b1
      (Outcome.ok b2, setBoard s b2)

/-- `BoardViewSet.retrieve` (get_object + `IsBoardMember`, then
`BoardDetailSerializer`): 404 when absent, 403 when the permission denies. -/
def getBoardDetail (s : State) (requester : UserId) (bid : BoardId) : Outcome Board :=
  match findBoard s bid with
  | none => Outcome.notFound
  | some b =>
    if !(isBoardMember requester b) then Outcome.forbidden
    else Outcome.ok b

/-- `TaskCreateSerializer.validate` / `TaskUpdateSerializer.validate`, first
raise: a truthy assignee/reviewer id must exist (`User.objects.get`). -/
def resolveFails (s : State) (o : Option UserId) : Bool :=
  pyTruthy o && !(s.users.contains (o.getD 0))

/-- `TaskCreateSerializer.validate` / `TaskUpdateSerializer.validate`, second
raise: a truthy assignee/reviewer id must be a member of the board. -/
def membershipFails (b : Board) (o : Option UserId) : Bool :=
  pyTruthy o && !(b.members.contains (o.getD 0))

/-- `TaskCreateSerializer.create`: `if assignee_id: task.assignee_id = assignee_id`
— a falsy id (absent or 0) leaves the field null. -/
def truthyOpt (o : Option UserId) : Option UserId :=
  match o with
  | some a => if a == 0 then none else some a
  | none => none

/-- `TaskViewSet.create` + `TaskCreateSerializer`: board existence (404), then
requester membership (403), then serializer validation (400), then creation.
`created_by` is always the requester; defaults `to-do` / `medium`. -/
def createTask (s : State) (requester : UserId) (boardId : BoardId)
    (title description : String) (st : Option Status) (pr : Option Priority)
    (assigneeId reviewerId : Option UserId) (dueDate : Option Nat) :
    Outcome Task × State :=
  match findBoard s boardId with
  | none => (Outcome.notFound, s)
  | some b =>
    if !(b.members.contains requester) then (Outcome.forbidden, s)
    else if pyStrip title = "" then (Outcome.validationError "title", s)
    else if resolveFails s assigneeId then (Outcome.validationError "assignee_id", s)
    else if membershipFails b assigneeId then (Outcome.validationError "assignee_id", s)
    else if resolveFails s reviewerId then (Outcome.validationError "reviewer_id", s)
    else if membershipFails b reviewerId then (Outcome.validationError "reviewer_id", s)
    else
      let t : Task := { id := freshTaskId s, board := boardId,
                        title := pyStrip title, description := pyStrip description,
                        status := st.getD Status.toDo, priority := pr.getD Priority.medium,
                        assignee := truthyOpt assigneeId, reviewer := truthyOpt reviewerId,
                        createdBy := requester, dueDate := dueDate }
      (Outcome.ok t, { s with tasks := s.tasks ++ [t] })

/-- A PATCH body for `TaskViewSet.partial_update`: the outer `Option` is
presence of the key in the request, the inner `Option` (for nullable fields)
is an explicit null. -/
structure TaskPatch where
  title : Option String := none
  description : Option String := none
  status : Option Status := none
  priority : Option Priority := none
  assigneeId : Option (Option UserId) := none
  reviewerId : Option (Option UserId) := none
  dueDate : Option (Option Nat) := none
  deriving Repr, DecidableEq

/-- `TaskViewSet.partial_update` + `TaskUpdateSerializer`: task existence
(404), requester membership of `task.board` (403), validation of any supplied
assignee/reviewer against the task's board (400), then `update`: fields
present in the request are applied (an explicit null clears
assignee/reviewer), absent fields are untouched.  The inner board lookup
cannot fail for a state satisfying foreign-key integrity. -/
def updateTask (s : State) (requester : UserId) (taskId : TaskId) (p : TaskPatch) :
    Outcome Task × State :=
  match findTask s taskId with
  | none => (Outcome.notFound, s)
  | some tk =>
    match findBoard s tk.board with
    | none => (Outcome.notFound, s)
    | some b =>
      if !(b.members.contains requester) then (Outcome.forbidden, s)
      else if blankIfGiven p.title then (Outcome.validationError "title", s)
      else if resolveFails s p.assigneeId.join then (Outcome.validationError "assignee_id", s)
      else if membershipFails b p.assigneeId.join then (Outcome.validationError "assignee_id", s)
      else if resolveFails s p.reviewerId.join then (Outcome.validationError "reviewer_id", s)
      else if membershipFails b p.reviewerId.join then (Outcome.validationError "reviewer_id", s)
      else
        let t1 : Task :=
          { tk with
            title := match p.title with | some t => pyStrip t | none => tk.title,
            description := match p.description with | some d => pyStrip d | none => tk.description,
            status := p.status.getD tk.status,
            priority := p.priority.getD tk.priority,
            dueDate := p.dueDate.getD tk.dueDate,
            assignee := p.assigneeId.getD tk.assignee,
            reviewer := p.reviewerId.getD tk.reviewer }
        (Outcome.ok t1, setTask s t1)

/-- `TaskViewSet.comments`, POST branch, + `CommentCreateSerializer`: task
existence (404), requester membership (403), DRF `CharField` blank check on
the trimmed content plus `validate_content` (400); the stored content is the
trimmed text, the author is the requester, `createdAt` is the current time
`now`. -/
def addComment (s : State) (now : Nat) (requester : UserId) (taskId : TaskId)
    (content : String) : Outcome Comment × State :=
  match findTask s taskId with
  | none => (Outcome.notFound, s)
  | some tk =>
    match findBoard s tk.board with
    | none => (Outcome.notFound, s)
    | some b =>
      if !(b.members.contains requester) then (Outcome.forbidden, s)
      else if pyStrip content = "" then (Outcome.validationError "content", s)
      else if pyStrip content = "" ∨ pyStrip (pyStrip content) = "" then
        (Outcome.validationError "content", s)
      else
        let c : Comment := { id := freshCommentId s, task := tk.id, author := requester,
                             content := pyStrip content, createdAt := now }
        (Outcome.ok c, { s with comments := s.comments ++ [c] })

/-- `Comment.Meta.ordering = ['created_at']`. -/
def byCreatedAt (c1 c2 : Comment) : Prop :=
  c1.createdAt ≤ c2.createdAt

instance : DecidableRel byCreatedAt :=
  fun c1 c2 => Nat.decLe c1.createdAt c2.createdAt

instance : IsTotal Comment byCreatedAt :=
  ⟨fun c1 c2 => Nat.le_total c1.createdAt c2.createdAt⟩

instance : IsTrans Comment byCreatedAt :=
  ⟨fun _ _ _ h1 h2 => Nat.le_trans h1 h2⟩

/-- `TaskViewSet.comments`, GET branch: task existence (404), requester
membership (403), then the task's comments in the model's `created_at`
ordering; tie-breaking follows the stored (insertion) order, modelled by a
stable sort of the insertion-ordered comment table. -/
def listComments (s : State) (requester : UserId) (taskId : TaskId) :
    Outcome (List Comment) :=
  match findTask s taskId with
  | none => Outcome.notFound
  | some tk =>
    match findBoard s tk.board with
    | none => Outcome.notFound
    | some b =>
      if !(b.members.contains requester) then Outcome.forbidden
      else Outcome.ok (List.insertionSort byCreatedAt
        (s.comments.filter (fun c => c.task == tk.id)))

/-- `TaskViewSet.delete_comment`: task existence (404), comment existence
(404), cross-task check (404), author check (403), then deletion. -/
def deleteComment (s : State) (requester : UserId) (taskId : TaskId)
    (commentId : CommentId) : Outcome Unit × State :=
  match findTask s taskId with
  | none => (Outcome.notFound, s)
  | some tk =>
    match findComment s commentId with
    | none => (Outcome.notFound, s)
    | some c =>
      if c.task != tk.id then (Outcome.notFound, s)
      else if c.author != requester then (Outcome.forbidden, s)
      else (Outcome.ok (), { s with comments := s.comments.filter (fun x => x.id != c.id) })

/-! Concrete states used to evaluate the operations -/

/-- Two registered users, no boards yet. -/
def exUsers : State := { users := [1, 2], boards := [], tasks := [], comments := [] }

/-- User 1 creates the board "Sprint 1" with an empty members list. -/
def exCreateRes : Outcome Board × State := createBoard exUsers 1 "Sprint 1" (some [])

def exAfterCreate : State := exCreateRes.2

/-- User 1 then replaces the membership set with `[2]`, omitting themselves. -/
def exUpdateRes : Outcome Board × State := updateBoard exAfterCreate 1 1 none (some [2])

def exAfterUpdate : State := exUpdateRes.2

/-- The board as it stands after the two calls above. -/
def exBoard : Board := { id := 1, title := "Sprint 1", owner := 1, members := [2] }

/-- Board 1: owned by user 1, members 1 and 2 (user 3 exists but is not a
member). -/
def demoBoard : Board := { id := 1, title := "Board", owner := 1, members := [1, 2] }

/-- Task 1 on board 1, created by user 1. -/
def demoTask : Task :=
  { id := 1, board := 1, title := "Task", description := "", status := Status.toDo,
    priority := Priority.medium, assignee := none, reviewer := none,
    createdBy := 1, dueDate := none }

/-- First comment on task 1, by member 1, timestamp 5. -/
def demoComment1 : Comment :=
  { id := 1, task := 1, author := 1, content := "first", createdAt := 5 }

/-- Second comment on task 1, inserted later but with the same timestamp 5,
authored by user 3, who is not a member of board 1. -/
def demoComment2 : Comment :=
  { id := 2, task := 1, author := 3, content := "second", createdAt := 5 }

/-- A populated state used to evaluate the task and comment operations. -/
def demoState : State :=
  { users := [1, 2, 3], boards := [demoBoard], tasks := [demoTask],
    comments := [demoComment1, demoComment2] }

/-- A task with both assignee and reviewer set, used to exercise the partial
update's present/absent distinction. -/
def demoTaskAssigned : Task :=
  { id := 7, board := 1, title := "Assigned", description := "d",
    status := Status.inProgress, priority := Priority.high, assignee := some 2,
    reviewer := some 1, createdBy := 1, dueDate := some 20 }

/-- A state holding `demoTaskAssigned` on board 1. -/
def demoState2 : State :=
  { users := [1, 2, 3], boards := [demoBoard], tasks := [demoTaskAssigned],
    comments := [] }

/-- A PATCH body that sets the status, clears the assignee with an explicit
null, and omits every other field. -/
def demoPatch : TaskPatch :=
  { status := some Status.done, assigneeId := some none }

/-- `demoTaskAssigned` after applying `demoPatch`: status changed, assignee
cleared, everything else untouched. -/
def demoPatchedTask : Task :=
  { id := 7, board := 1, title := "Assigned", description := "d",
    status := Status.done, priority := Priority.high, assignee := none,
    reviewer := some 1, createdBy := 1, dueDate := some 20 }

/-! Helper lemmas -/

theorem findBoard_id {s : State} {bid : BoardId} {b : Board}
    (h : findBoard s bid = some b) : b.id = bid := by
  have := List.find?_some h
  simpa using this

theorem findTask_id {s : State} {tid : TaskId} {t : Task}
    (h : findTask s tid = some t) : t.id = tid := by
  have := List.find?_some h
  simpa using this

theorem findComment_id {s : State} {cid : CommentId} {c : Comment}
    (h : findComment s cid = some c) : c.id = cid := by
  have := List.find?_some h
  simpa using this

theorem contains_iff_mem {l : List Nat} {a : Nat} : l.contains a = true ↔ a ∈ l :=
  List.elem_iff

theorem dropWhile_head_false {α : Type} {p : α → Bool} :
    ∀ {l : List α} {c : α} {t : List α}, l.dropWhile p = c :: t → p c = false := by
  intro l
  induction l with
  | nil => intro c t h; simp [List.dropWhile] at h
  | cons a l ih =>
    intro c t h
    by_cases hp : p a
    · rw [List.dropWhile_cons_of_pos hp] at h
      exact ih h
    · rw [List.dropWhile_cons_of_neg hp] at h
      cases h
      simpa using hp

theorem trimChars_idem (p : Char → Bool) (l : List Char) :
    trimChars p (trimChars p l) = trimChars p l := by
  unfold trimChars
  cases hA : l.dropWhile p with
  | nil => simp
  | cons c A =>
    have hc : p c = false := dropWhile_head_false hA
    rw [List.reverse_cons]
    cases hD : A.reverse.dropWhile p with
    | nil =>
      rw [List.dropWhile_append, hD]
      simp [List.dropWhile_cons, hc]
    | cons d D =>
      have hd : p d = false := dropWhile_head_false hD
      rw [List.dropWhile_append, hD]
      simp only [List.isEmpty_cons, ite_false, Bool.false_eq_true]
      have h1 : (d :: D ++ [c]).reverse = c :: (D.reverse ++ [d]) := by simp
      rw [h1]
      rw [List.dropWhile_cons_of_neg (by simp [hc])]
      have h2 : (c :: (D.reverse ++ [d])).reverse = d :: D ++ [c] := by simp
      rw [h2]
      rw [List.dropWhile_append, List.dropWhile_cons_of_neg (by simp [hd])]
      simp

theorem pyStrip_idem (s : String) : pyStrip (pyStrip s) = pyStrip s := by
  unfold pyStrip
  have h : (String.mk (trimChars Char.isWhitespace s.toList)).toList =
      trimChars Char.isWhitespace s.toList := rfl
  rw [h, trimChars_idem]

theorem isBoardMember_iff {u : UserId} {b : Board} :
    isBoardMember u b = true ↔ (b.owner = u ∨ u ∈ b.members) := by
  simp [isBoardMember]

theorem membersInvalid_eq_false_iff {s : State} {mids : List UserId} :
    membersInvalid s mids = false ↔ ∀ m ∈ mids, m ∈ s.users := by
  simp [membersInvalid]

/-! C1 -/

/-- C1: the claim as stated is false on the code. Concretely: user 1 creates
board "Sprint 1" (members become `[1]`, so `owner ∈ members` holds), then a
successful `updateBoard` by user 1 with the non-empty member list `[2]` — which
omits owner 1 — replaces the membership set with `[2]` without re-adding the
owner, so `owner ∈ members` is violated immediately after an `updateBoard`. -/
theorem updateBoard_drops_owner_cex :
    findBoard exAfterCreate 1 =
      some { id := 1, title := "Sprint 1", owner := 1, members := [1] } ∧
    exUpdateRes.1 = Outcome.ok exBoard ∧
    findBoard exAfterUpdate 1 = some exBoard ∧
    ([2] : List UserId) ≠ [] ∧
    exBoard.owner ∉ exBoard.members := by
  refine ⟨rfl, rfl, rfl, by decide, by decide⟩

/-- C1 (amended): `owner ∈ members` holds immediately after `createBoard`, and
is preserved by an `updateBoard` whose `memberIds` is absent, empty, or
contains the (registered) owner; the code does not re-add an owner omitted
from a non-empty `memberIds` list. -/
theorem owner_membership_amended :
    (∀ (s : State) (r : UserId) (t : String) (mids : Option (List UserId))
       (b : Board) (s' : State),
       createBoard s r t mids = (Outcome.ok b, s') → b.owner ∈ b.members) ∧
    (∀ (s : State) (r : UserId) (bid : BoardId) (nt : Option String)
       (mids : Option (List UserId)) (b0 b : Board) (s' : State),
       findBoard s bid = some b0 → b0.owner ∈ b0.members → b0.owner ∈ s.users →
       (mids = none ∨ mids = some [] ∨ (∃ l, mids = some l ∧ b0.owner ∈ l)) →
       updateBoard s r bid nt mids = (Outcome.ok b, s') → b.owner ∈ b.members) := by
  constructor
  · intro s r t mids b s' h
    unfold createBoard at h
    by_cases ht : pyStrip t = ""
    · simp [ht] at h
    · simp only [if_neg ht] at h
      by_cases hv : membersInvalid s (mids.getD [])
      · simp [hv] at h
      · simp only [hv, Bool.false_eq_true, if_neg, ite_false] at h
        by_cases hc :
            (if (mids.getD []).isEmpty then
                ({ id := freshBoardId s, title := pyStrip t, owner := r, members := [] } : Board)
              else { id := freshBoardId s, title := pyStrip t, owner := r,
                     members := s.users.filter (fun u => (mids.getD []).contains u) }).members.contains r
        · simp only [hc, ite_true, Prod.mk.injEq, Outcome.ok.injEq] at h
          obtain ⟨hb, -⟩ := h
          subst hb
          by_cases he : (mids.getD []).isEmpty <;>
            simp_all [contains_iff_mem]
        · simp only [hc, Bool.false_eq_true, ite_false, Prod.mk.injEq, Outcome.ok.injEq] at h
          obtain ⟨hb, -⟩ := h
          subst hb
          by_cases he : (mids.getD []).isEmpty <;> simp_all
  · intro s r bid nt mids b0 b s' hb0 hown huser hmids h
    unfold updateBoard at h
    rw [hb0] at h
    by_cases hp : isBoardMember r b0
    · simp only [hp, Bool.not_true, Bool.false_eq_true, ite_false] at h
      by_cases hblank : blankIfGiven nt
      · simp [hblank] at h
      · simp only [hblank, Bool.false_eq_true, ite_false] at h
        by_cases hv : membersInvalid s (mids.getD [])
        · simp [hv] at h
        · simp only [hv, Bool.false_eq_true, ite_false, Prod.mk.injEq, Outcome.ok.injEq] at h
          obtain ⟨hb, -⟩ := h
          subst hb
          rcases hmids with hnone | hempty | ⟨l, hl, howl⟩
          · subst hnone
            simpa using hown
          · subst hempty
            simpa using hown
          · subst hl
            by_cases he : l.isEmpty
            · simp_all
            · simp only [he, Bool.false_eq_true, ite_false]
              simp only [List.mem_filter, contains_iff_mem, decide_eq_true_eq]
              exact ⟨huser, by simpa [contains_iff_mem] using howl⟩
    · simp [hp] at h

/-- Witness for the amended C1 theorem: user 1 creating "Sprint 1" over
`exUsers` yields the board with members `[1]`, which contains the owner. -/
theorem owner_membership_amended_witness :
    ({ id := 1, title := "Sprint 1", owner := 1, members := [1] } : Board).owner ∈
      ({ id := 1, title := "Sprint 1", owner := 1, members := [1] } : Board).members :=
  owner_membership_amended.1 exUsers 1 "Sprint 1" (some [])
    { id := 1, title := "Sprint 1", owner := 1, members := [1] } exAfterCreate rfl

/-! C2 -/

/-- C2: the claim as stated is false on the code.  In `exAfterUpdate` the
board's owner (user 1) is not in `members = [2]`, yet reading the board detail
succeeds and updating the board is not Forbidden: `IsBoardMember` grants
access to the owner separately, so membership is not the sole criterion. -/
theorem member_only_access_cex :
    getBoardDetail exAfterUpdate 1 1 = Outcome.ok exBoard ∧
    (updateBoard exAfterUpdate 1 1 (some "Renamed") none).1 ≠ Outcome.forbidden ∧
    exBoard.owner = 1 ∧
    (1 : UserId) ∉ exBoard.members := by
  refine ⟨rfl, by decide, rfl, by decide⟩

/-- C2 (amended): for an existing board, the read-detail and update decisions
allow exactly the requesters `r` with `r = owner ∨ r ∈ members`, and are
Forbidden exactly for every other requester. -/
theorem board_access_owner_or_member (s : State) (r : UserId) (bid : BoardId)
    (b : Board) (nt : Option String) (mids : Option (List UserId))
    (hb : findBoard s bid = some b) :
    (getBoardDetail s r bid = Outcome.ok b ↔ (b.owner = r ∨ r ∈ b.members)) ∧
    (getBoardDetail s r bid = Outcome.forbidden ↔ ¬(b.owner = r ∨ r ∈ b.members)) ∧
    ((updateBoard s r bid nt mids).1 = Outcome.forbidden ↔ ¬(b.owner = r ∨ r ∈ b.members)) := by
  have hperm : isBoardMember r b = true ↔ (b.owner = r ∨ r ∈ b.members) := isBoardMember_iff
  by_cases hp : isBoardMember r b
  · have hpr := hperm.mp hp
    refine ⟨?_, ?_, ?_⟩
    · simp [getBoardDetail, hb, hp, hpr]
    · simp [getBoardDetail, hb, hp, hpr]
    · constructor
      · intro hfb
        exfalso
        unfold updateBoard at hfb
        rw [hb] at hfb
        simp only [hp, Bool.not_true, Bool.false_eq_true, ite_false] at hfb
        by_cases hblank : blankIfGiven nt
        · simp [hblank] at hfb
        · simp only [hblank, Bool.false_eq_true, ite_false] at hfb
          by_cases hv : membersInvalid s (mids.getD [])
          · simp [hv] at hfb
          · simp [hv] at hfb
      · intro hno
        exact absurd hpr hno
  · have hpr : ¬(b.owner = r ∨ r ∈ b.members) := fun hc => hp (hperm.mpr hc)
    refine ⟨?_, ?_, ?_⟩
    · simp [getBoardDetail, hb, hp, hpr]
    · simp [getBoardDetail, hb, hp, hpr]
    · unfold updateBoard
      rw [hb]
      simp [hp, hpr]

/-- Witness for the amended C2 theorem: user 2, a member of `exBoard`, may
read the board detail. -/
theorem board_access_owner_or_member_witness :
    getBoardDetail exAfterUpdate 2 1 = Outcome.ok exBoard :=
  (board_access_owner_or_member exAfterUpdate 2 1 exBoard none none rfl).1.mpr
    (Or.inr (by decide))

/-! C3 -/

/-- C3: a successful `createBoard(title, ownerId, memberIds)` creates a board
whose owner is the requester and whose member set is exactly
`memberIds ∪ {ownerId}` — the owner is included even when omitted from
`memberIds`; the board is stored in the successor state. -/
theorem createBoard_members_union (s : State) (r : UserId) (t : String)
    (mids : List UserId) (b : Board) (s' : State)
    (h : createBoard s r t (some mids) = (Outcome.ok b, s')) :
    b.owner = r ∧ b ∈ s'.boards ∧ ∀ u : UserId, u ∈ b.members ↔ (u ∈ mids ∨ u = r) := by
  unfold createBoard at h
  by_cases ht : pyStrip t = ""
  · simp [ht] at h
  · simp only [if_neg ht, Option.getD_some] at h
    by_cases hv : membersInvalid s mids
    · simp [hv] at h
    · have hval : ∀ m ∈ mids, m ∈ s.users :=
        membersInvalid_eq_false_iff.mp (Bool.not_eq_true _ ▸ hv)
      simp only [hv, Bool.false_eq_true, ite_false, Prod.mk.injEq, Outcome.ok.injEq] at h
      obtain ⟨hbf, hsf⟩ := h
      subst hbf
      subst hsf
      by_cases he : mids.isEmpty
      · have hnil : mids = [] := List.isEmpty_iff.mp he
        subst hnil
        simp
      · simp only [he, Bool.false_eq_true, ite_false]
        by_cases hc : (s.users.filter (fun u => mids.contains u)).contains r
        · simp only [hc, ite_true]
          refine ⟨by trivial, by simp, ?_⟩
          intro u
          constructor
          · intro hu
            simp only [List.mem_filter, contains_iff_mem] at hu
            exact Or.inl hu.2
          · rintro (hm | rfl)
            · simp only [List.mem_filter, contains_iff_mem]
              exact ⟨hval u hm, hm⟩
            · exact contains_iff_mem.mp hc
        · simp only [hc, Bool.false_eq_true, ite_false]
          refine ⟨by trivial, by simp, ?_⟩
          intro u
          constructor
          · intro hu
            rcases List.mem_append.mp hu with hu | hu
            · simp only [List.mem_filter, contains_iff_mem] at hu
              exact Or.inl hu.2
            · exact Or.inr (List.mem_singleton.mp hu)
          · rintro (hm | rfl)
            · refine List.mem_append.mpr (Or.inl ?_)
              simp only [List.mem_filter, contains_iff_mem]
              exact ⟨hval u hm, hm⟩
            · exact List.mem_append.mpr (Or.inr (List.mem_singleton.mpr rfl))

/-- Witness for C3, the scenario from the spec: `createBoard("Sprint 1", A, [])`
with `A = 1` yields a board with `owner = 1` and member set `{1}`. -/
theorem createBoard_members_union_witness :
    ({ id := 1, title := "Sprint 1", owner := 1, members := [1] } : Board).owner = 1 ∧
    ({ id := 1, title := "Sprint 1", owner := 1, members := [1] } : Board) ∈
      exAfterCreate.boards ∧
    ∀ u : UserId,
      u ∈ ({ id := 1, title := "Sprint 1", owner := 1, members := [1] } : Board).members ↔
        (u ∈ ([] : List UserId) ∨ u = 1) :=
  createBoard_members_union exUsers 1 "Sprint 1" []
    { id := 1, title := "Sprint 1", owner := 1, members := [1] } exAfterCreate rfl

/-! C4 -/

/-- C4: for an existing task whose board has the requester as a member,
content that is empty or whitespace-only is rejected with a `content`
ValidationError and the state is unchanged (no comment is created); any other
content is stored as exactly one new comment whose stored text is the trimmed
input — non-empty and equal to its own trim. -/
theorem addComment_trimmed_nonempty (s : State) (now : Nat) (r : UserId)
    (tid : TaskId) (content : String) (tk : Task) (b : Board)
    (htk : findTask s tid = some tk) (hb : findBoard s tk.board = some b)
    (hm : b.members.contains r = true) :
    (pyStrip content = "" →
      addComment s now r tid content = (Outcome.validationError "content", s)) ∧
    (pyStrip content ≠ "" →
      addComment s now r tid content =
        (Outcome.ok { id := freshCommentId s, task := tk.id, author := r,
                      content := pyStrip content, createdAt := now },
         { s with comments := s.comments ++
            [{ id := freshCommentId s, task := tk.id, author := r,
               content := pyStrip content, createdAt := now }] }) ∧
      pyStrip (pyStrip content) = pyStrip content) := by
  unfold addComment
  rw [htk]
  dsimp only
  rw [hb]
  dsimp only
  rw [hm]
  constructor
  · intro hempty
    simp [hempty]
  · intro hne
    have hidem := pyStrip_idem content
    refine ⟨?_, hidem⟩
    simp only [Bool.not_true, Bool.false_eq_true, ite_false, if_neg hne]
    rw [if_neg (by push_neg; exact ⟨hne, by rw [hidem]; exact hne⟩)]

/-- Witness for C4: member 2 posts `" ship it "` on task 1; the stored comment
content is the trimmed `"ship it"`. -/
theorem addComment_trimmed_nonempty_witness :
    addComment demoState 9 2 1 " ship it " =
      (Outcome.ok { id := 3, task := 1, author := 2, content := "ship it", createdAt := 9 },
       { demoState with comments := demoState.comments ++
          [{ id := 3, task := 1, author := 2, content := "ship it", createdAt := 9 }] }) :=
  ((addComment_trimmed_nonempty demoState 9 2 1 " ship it " demoTask demoBoard
      rfl rfl rfl).2 (by decide)).1

/-! C5 -/

/-- C5: the claim as stated is false on the code at one input class: a
supplied `assigneeId` of `0` does not resolve to an existing user (user `0`
is not registered), yet `createTask` raises no field ValidationError — the
Python truthiness test `if assignee_id:` skips validation for `0`, and the
task is created with no assignee. -/
theorem createTask_zero_assignee_cex :
    createTask demoState 1 1 "Fix bug" "" none none (some 0) none none =
      (Outcome.ok { id := 2, board := 1, title := "Fix bug", description := "",
                    status := Status.toDo, priority := Priority.medium,
                    assignee := none, reviewer := none, createdBy := 1, dueDate := none },
       { demoState with tasks := demoState.tasks ++
          [{ id := 2, board := 1, title := "Fix bug", description := "",
             status := Status.toDo, priority := Priority.medium,
             assignee := none, reviewer := none, createdBy := 1, dueDate := none }] }) ∧
    (0 : UserId) ∉ demoState.users := by
  refine ⟨by decide, by decide⟩

/-- C5 (amended): `createTask` checks existence, then authorization, then
field validation, in that order: a missing board yields NotFound; an existing
board with a non-member requester yields Forbidden; for a member requester
(with a non-blank title), a supplied non-zero `assigneeId` that does not
resolve or is not a board member yields a ValidationError naming
`assignee_id`, then likewise `reviewer_id`; the task is created, and the
state extended, only after every check passes.  (A zero id is treated by the
code as not supplied.) -/
theorem createTask_check_order (s : State) (r : UserId) (bid : BoardId)
    (title description : String) (st : Option Status) (pr : Option Priority)
    (aid rid : Option UserId) (dd : Option Nat) :
    (findBoard s bid = none →
      createTask s r bid title description st pr aid rid dd = (Outcome.notFound, s)) ∧
    (∀ b : Board, findBoard s bid = some b → b.members.contains r = false →
      createTask s r bid title description st pr aid rid dd = (Outcome.forbidden, s)) ∧
    (∀ b : Board, findBoard s bid = some b → b.members.contains r = true →
      pyStrip title ≠ "" →
      ((resolveFails s aid = true ∨ membershipFails b aid = true) →
        createTask s r bid title description st pr aid rid dd =
          (Outcome.validationError "assignee_id", s)) ∧
      (resolveFails s aid = false → membershipFails b aid = false →
        (resolveFails s rid = true ∨ membershipFails b rid = true) →
        createTask s r bid title description st pr aid rid dd =
          (Outcome.validationError "reviewer_id", s)) ∧
      (resolveFails s aid = false → membershipFails b aid = false →
        resolveFails s rid = false → membershipFails b rid = false →
        createTask s r bid title description st pr aid rid dd =
          (Outcome.ok { id := freshTaskId s, board := bid, title := pyStrip title,
                        description := pyStrip description, status := st.getD Status.toDo,
                        priority := pr.getD Priority.medium, assignee := truthyOpt aid,
                        reviewer := truthyOpt rid, createdBy := r, dueDate := dd },
           { s with tasks := s.tasks ++
              [{ id := freshTaskId s, board := bid, title := pyStrip title,
                 description := pyStrip description, status := st.getD Status.toDo,
                 priority := pr.getD Priority.medium, assignee := truthyOpt aid,
                 reviewer := truthyOpt rid, createdBy := r, dueDate := dd }] }))) := by
  refine ⟨?_, ?_, ?_⟩
  · intro hnone
    unfold createTask
    rw [hnone]
  · intro b hb hmem
    unfold createTask
    rw [hb]
    dsimp only
    rw [hmem]
    simp
  · intro b hb hmem htitle
    unfold createTask
    rw [hb]
    dsimp only
    rw [hmem]
    simp only [Bool.not_true, Bool.false_eq_true, ite_false, if_neg htitle]
    refine ⟨?_, ?_, ?_⟩
    · rintro (ha | ha)
      · rw [ha]
        simp
      · cases hra : resolveFails s aid with
        | true => simp
        | false => rw [ha]; simp
    · intro hra hma hrev
      rw [hra, hma]
      rcases hrev with hr1 | hr1
      · rw [hr1]
        simp
      · cases hrr : resolveFails s rid with
        | true => simp
        | false => rw [hr1]; simp
    · intro hra hma hrr hmr
      rw [hra, hma, hrr, hmr]
      simp

/-- Witness for the amended C5, the spec's scenario: member 1 creates a task
on board 1 with `assigneeId = 3`, and user 3 is not a board member, so the
call fails with a ValidationError naming `assignee_id`. -/
theorem createTask_check_order_witness :
    createTask demoState 1 1 "Fix bug" "" none none (some 3) none none =
      (Outcome.validationError "assignee_id", demoState) :=
  ((createTask_check_order demoState 1 1 "Fix bug" "" none none (some 3) none none).2.2
      demoBoard rfl rfl (by decide)).1 (Or.inr (by decide))

/-! C6 -/

/-- C6: `deleteComment(taskId, commentId, requesterId)` yields NotFound when
the comment does not exist; NotFound (treated as absent, not a mismatch
error) when the comment exists but its task differs from `taskId`; Forbidden
when the comment exists under `taskId` but the requester is not its author;
and deletes the comment exactly when the requester is its author. -/
theorem deleteComment_flow (s : State) (r : UserId) (tid : TaskId) (cid : CommentId) :
    (findComment s cid = none → deleteComment s r tid cid = (Outcome.notFound, s)) ∧
    (∀ c : Comment, findComment s cid = some c → c.task ≠ tid →
      deleteComment s r tid cid = (Outcome.notFound, s)) ∧
    (∀ (c : Comment) (tk : Task), findTask s tid = some tk →
      findComment s cid = some c → c.task = tid → c.author ≠ r →
      deleteComment s r tid cid = (Outcome.forbidden, s)) ∧
    (∀ (c : Comment) (tk : Task), findTask s tid = some tk →
      findComment s cid = some c → c.task = tid → c.author = r →
      deleteComment s r tid cid =
        (Outcome.ok (), { s with comments := s.comments.filter (fun x => x.id != c.id) })) := by
  refine ⟨?_, ?_, ?_, ?_⟩
  · intro hc
    cases htk : findTask s tid with
    | none => simp [deleteComment, htk]
    | some tk => simp [deleteComment, htk, hc]
  · intro c hc hne
    cases htk : findTask s tid with
    | none => simp [deleteComment, htk]
    | some tk =>
      have hid : tk.id = tid := findTask_id htk
      have hmm : (c.task != tk.id) = true := by rw [hid]; simpa using hne
      simp [deleteComment, htk, hc, hmm]
  · intro c tk htk hc htask hauth
    have hid : tk.id = tid := findTask_id htk
    have h1 : (c.task != tk.id) = false := by rw [hid]; simp [htask]
    have h2 : (c.author != r) = true := by simpa using hauth
    simp [deleteComment, htk, hc, h1, h2]
  · intro c tk htk hc htask hauth
    have hid : tk.id = tid := findTask_id htk
    have h1 : (c.task != tk.id) = false := by rw [hid]; simp [htask]
    have h2 : (c.author != r) = false := by simp [hauth]
    simp [deleteComment, htk, hc, h1, h2]

/-- Witness for C6: member 2 is not the author of comment 1, so the delete is
Forbidden and the state unchanged. -/
theorem deleteComment_flow_witness :
    deleteComment demoState 2 1 1 = (Outcome.forbidden, demoState) :=
  (deleteComment_flow demoState 2 1 1).2.2.1 demoComment1 demoTask rfl rfl rfl (by decide)

/-! C9 -/

/-- C9: calling `deleteComment` with a comment id that matches no existing
comment returns NotFound and leaves the whole state (boards, tasks and
comments alike) unchanged. -/
theorem deleteComment_missing_state_unchanged (s : State) (r : UserId)
    (tid : TaskId) (cid : CommentId) (h : findComment s cid = none) :
    deleteComment s r tid cid = (Outcome.notFound, s) := by
  cases htk : findTask s tid with
  | none => simp [deleteComment, htk]
  | some tk => simp [deleteComment, htk, h]

/-- Witness for C9: comment 99 does not exist in `demoState`. -/
theorem deleteComment_missing_state_unchanged_witness :
    deleteComment demoState 1 1 99 = (Outcome.notFound, demoState) :=
  deleteComment_missing_state_unchanged demoState 1 1 99 rfl

/-! C10 -/

/-- C10: `deleteComment` performs no board-membership check: for an existing
comment under `taskId`, any requester other than the author receives
Forbidden — the statement carries no membership hypothesis at all, so this
holds whether or not the requester is a member of the task's board — and the
author's delete succeeds, again with no membership requirement. -/
theorem deleteComment_ignores_membership (s : State) (r : UserId) (tid : TaskId)
    (cid : CommentId) (c : Comment) (tk : Task)
    (htk : findTask s tid = some tk) (hc : findComment s cid = some c)
    (htask : c.task = tid) :
    (c.author ≠ r → deleteComment s r tid cid = (Outcome.forbidden, s)) ∧
    (c.author = r → deleteComment s r tid cid =
      (Outcome.ok (), { s with comments := s.comments.filter (fun x => x.id != c.id) })) := by
  have hid : tk.id = tid := findTask_id htk
  have h1 : (c.task != tk.id) = false := by rw [hid]; simp [htask]
  constructor
  · intro hauth
    have h2 : (c.author != r) = true := by simpa using hauth
    simp [deleteComment, htk, hc, h1, h2]
  · intro hauth
    have h2 : (c.author != r) = false := by simp [hauth]
    simp [deleteComment, htk, hc, h1, h2]

/-- Witness for C10: non-member 3 asking to delete the existing comment 1
gets Forbidden (not NotFound), and user 3 — author of comment 2 but not a
member of board 1 — successfully deletes their own comment. -/
theorem deleteComment_ignores_membership_witness :
    ((3 : UserId) ∉ demoBoard.members ∧
      deleteComment demoState 3 1 1 = (Outcome.forbidden, demoState)) ∧
    deleteComment demoState 3 1 2 =
      (Outcome.ok (), { demoState with comments := [demoComment1] }) :=
  ⟨⟨by decide,
    (deleteComment_ignores_membership demoState 3 1 1 demoComment1 demoTask
        rfl rfl rfl).1 (by decide)⟩,
   (deleteComment_ignores_membership demoState 3 1 2 demoComment2 demoTask
        rfl rfl rfl).2 rfl⟩

/-! C7 -/

/-- C7: on any successful `updateTask`, fields present in the request are
applied — an explicit null (`some none`) clears the assignee or reviewer —
and fields absent (`none`) keep their prior values; the task's id, board and
creator are never touched, and the successor state replaces exactly that
task. -/
theorem updateTask_frame (s : State) (r : UserId) (tid : TaskId) (p : TaskPatch)
    (tk t' : Task) (s' : State)
    (htk : findTask s tid = some tk)
    (h : updateTask s r tid p = (Outcome.ok t', s')) :
    t'.assignee = p.assigneeId.getD tk.assignee ∧
    t'.reviewer = p.reviewerId.getD tk.reviewer ∧
    t'.title = (p.title.map pyStrip).getD tk.title ∧
    t'.description = (p.description.map pyStrip).getD tk.description ∧
    t'.status = p.status.getD tk.status ∧
    t'.priority = p.priority.getD tk.priority ∧
    t'.dueDate = p.dueDate.getD tk.dueDate ∧
    t'.id = tk.id ∧ t'.board = tk.board ∧ t'.createdBy = tk.createdBy ∧
    s' = setTask s t' := by
  unfold updateTask at h
  rw [htk] at h
  dsimp only at h
  cases hb : findBoard s tk.board with
  | none => rw [hb] at h; simp at h
  | some b =>
    rw [hb] at h
    dsimp only at h
    cases hm : b.members.contains r with
    | false => rw [hm] at h; simp at h
    | true =>
      rw [hm] at h
      simp only [Bool.not_true, Bool.false_eq_true, ite_false] at h
      cases hbl : blankIfGiven p.title with
      | true => rw [hbl] at h; simp at h
      | false =>
        rw [hbl] at h
        simp only [Bool.false_eq_true, ite_false] at h
        cases hra : resolveFails s p.assigneeId.join with
        | true => rw [hra] at h; simp at h
        | false =>
          rw [hra] at h
          simp only [Bool.false_eq_true, ite_false] at h
          cases hma : membershipFails b p.assigneeId.join with
          | true => rw [hma] at h; simp at h
          | false =>
            rw [hma] at h
            simp only [Bool.false_eq_true, ite_false] at h
            cases hrr : resolveFails s p.reviewerId.join with
            | true => rw [hrr] at h; simp at h
            | false =>
              rw [hrr] at h
              simp only [Bool.false_eq_true, ite_false] at h
              cases hmr : membershipFails b p.reviewerId.join with
              | true => rw [hmr] at h; simp at h
              | false =>
                rw [hmr] at h
                simp only [Bool.false_eq_true, ite_false, Prod.mk.injEq,
                  Outcome.ok.injEq] at h
                obtain ⟨h1, h2⟩ := h
                subst h1
                subst h2
                refine ⟨rfl, rfl, ?_, ?_, rfl, rfl, rfl, rfl, rfl, rfl, rfl⟩
                · cases p.title <;> rfl
                · cases p.description <;> rfl

/-- Witness for C7: applying `demoPatch` — status present, assignee present
as explicit null, all else absent — to `demoTaskAssigned` clears the assignee
and keeps the reviewer. -/
theorem updateTask_frame_witness :
    demoPatchedTask.assignee = demoPatch.assigneeId.getD demoTaskAssigned.assignee ∧
    demoPatchedTask.reviewer = demoPatch.reviewerId.getD demoTaskAssigned.reviewer ∧
    demoPatchedTask.assignee = none ∧
    demoPatchedTask.reviewer = some 1 ∧
    demoPatchedTask.status = Status.done :=
  have h := updateTask_frame demoState2 2 7 demoPatch demoTaskAssigned demoPatchedTask
    (setTask demoState2 demoPatchedTask) rfl rfl
  ⟨h.1, h.2.1, h.1.trans rfl, h.2.1.trans rfl, h.2.2.2.2.1.trans rfl⟩

/-! C8 -/

/-- C8: for a requester who is a member of the task's board, `listComments`
returns exactly the task's comments (a permutation of the comment table
filtered to the task), sorted ascending by `created_at`; and any two of the
task's comments in insertion order whose timestamps are non-decreasing — in
particular equal — keep their relative order, so ties are broken by
insertion order and an earlier-created comment is listed first. -/
theorem listComments_sorted_stable (s : State) (r : UserId) (tid : TaskId)
    (tk : Task) (b : Board)
    (htk : findTask s tid = some tk) (hb : findBoard s tk.board = some b)
    (hm : b.members.contains r = true) :
    listComments s r tid =
      Outcome.ok (List.insertionSort byCreatedAt
        (s.comments.filter (fun c => c.task == tid))) ∧
    (List.insertionSort byCreatedAt
        (s.comments.filter (fun c => c.task == tid))).Perm
      (s.comments.filter (fun c => c.task == tid)) ∧
    (List.insertionSort byCreatedAt
        (s.comments.filter (fun c => c.task == tid))).Sorted byCreatedAt ∧
    (∀ c1 c2 : Comment,
      [c1, c2].Sublist (s.comments.filter (fun c => c.task == tid)) →
      c1.createdAt ≤ c2.createdAt →
      [c1, c2].Sublist (List.insertionSort byCreatedAt
        (s.comments.filter (fun c => c.task == tid)))) := by
  have hid : tk.id = tid := findTask_id htk
  subst hid
  refine ⟨?_, ?_, ?_, ?_⟩
  · have hmem : r ∈ b.members := contains_iff_mem.mp hm
    simp [listComments, htk, hb, hm, hmem]
  · exact List.perm_insertionSort byCreatedAt _
  · exact List.sorted_insertionSort byCreatedAt _
  · intro c1 c2 hsub hle
    exact List.pair_sublist_insertionSort hle hsub

/-- Witness for C8: in `demoState` the two comments on task 1 have equal
timestamps; the earlier-inserted comment 1 is listed before comment 2. -/
theorem listComments_sorted_stable_witness :
    listComments demoState 2 1 = Outcome.ok [demoComment1, demoComment2] ∧
    [demoComment1, demoComment2].Sublist
      (List.insertionSort byCreatedAt
        (demoState.comments.filter (fun c => c.task == 1))) :=
  have h := listComments_sorted_stable demoState 2 1 demoTask demoBoard rfl rfl rfl
  ⟨h.1.trans (congrArg Outcome.ok (by decide)),
   h.2.2.2 demoComment1 demoComment2 (by decide) (by decide)⟩

end Kanmind
